import Mathlib

/-!
Verification of the osteovision inference-and-explainability pipeline
(`src/app/app.py`) against its natural-language specification.

The pipeline is shallowly embedded: tensors become functions over `Fin`
indices with values in `ℚ` (TensorFlow floating-point values whose claims
here do not depend on rounding), fallible operations return `Except` or
`Option`, and the one genuinely non-finite float outcome that matters
(division by a zero maximum in the Grad-CAM normalization, which produces
NaN in TensorFlow) is modelled by `Option ℚ` with `none` standing for a
non-finite value.
-/

/-! ## List maximum / minimum (semantics of `tf.math.reduce_max`, `np.min`, `np.max`) -/

/-- Maximum of a list of rationals; `0` on the empty list (every tensor the
pipeline reduces is nonempty, so the default is never reached on real runs). -/
def listMax : List ℚ → ℚ
  | [] => 0
  | x :: xs => xs.foldl max x

/-- Minimum of a list of rationals; `0` on the empty list. -/
def listMin : List ℚ → ℚ
  | [] => 0
  | x :: xs => xs.foldl min x

theorem le_foldl_max (l : List ℚ) (b : ℚ) : b ≤ l.foldl max b := by
  induction l generalizing b with
  | nil => exact le_refl b
  | cons a l ih => exact le_trans (le_max_left b a) (ih (max b a))

theorem mem_le_foldl_max {x : ℚ} (l : List ℚ) (b : ℚ) (hx : x ∈ l) :
    x ≤ l.foldl max b := by
  induction l generalizing b with
  | nil => cases hx
  | cons a l ih =>
    rcases List.mem_cons.mp hx with h | h
    · subst h
      exact le_trans (le_max_right b x) (le_foldl_max l (max b x))
    · exact ih (max b a) h

theorem listMax_ge {x : ℚ} {l : List ℚ} (hx : x ∈ l) : x ≤ listMax l := by
  cases l with
  | nil => cases hx
  | cons a l =>
    rcases List.mem_cons.mp hx with h | h
    · subst h; exact le_foldl_max l x
    · exact mem_le_foldl_max l a h

theorem foldl_max_le {m : ℚ} (l : List ℚ) (b : ℚ) (hb : b ≤ m)
    (hl : ∀ x ∈ l, x ≤ m) : l.foldl max b ≤ m := by
  induction l generalizing b with
  | nil => exact hb
  | cons a l ih =>
    exact ih (max b a) (max_le hb (hl a (List.mem_cons_self a l))) fun x hx =>
      hl x (List.mem_cons_of_mem a hx)

theorem listMax_le {m : ℚ} {l : List ℚ} (hne : l ≠ []) (hl : ∀ x ∈ l, x ≤ m) :
    listMax l ≤ m := by
  cases l with
  | nil => exact absurd rfl hne
  | cons a l =>
    exact foldl_max_le l a (hl a (List.mem_cons_self a l)) fun x hx =>
      hl x (List.mem_cons_of_mem a hx)

/-! ## Index selection (`tf.argmax`, TensorFlow tensor slicing) -/

/-- `tf.argmax` over a rank-1 tensor: index of the first occurrence of the
maximum entry (ties keep the earlier index, matching TensorFlow/NumPy). -/
def tfArgmax {n : Nat} [NeZero n] (p : Fin n → ℚ) : Fin n :=
  (List.finRange n).foldl (fun best i => if p best < p i then i else best)
    ⟨0, Nat.pos_of_ne_zero (NeZero.ne n)⟩

theorem argmax_foldl_ge {n : Nat} (p : Fin n → ℚ) (l : List (Fin n)) (b : Fin n) :
    p b ≤ p (l.foldl (fun best i => if p best < p i then i else best) b) ∧
      ∀ x ∈ l, p x ≤ p (l.foldl (fun best i => if p best < p i then i else best) b) := by
  induction l generalizing b with
  | nil => exact ⟨le_refl _, fun x hx => absurd hx (List.not_mem_nil x)⟩
  | cons a l ih =>
    have hb : p b ≤ p (if p b < p a then a else b) := by
      by_cases h : p b < p a
      · simpa [h] using le_of_lt h
      · simp [h]
    have ha : p a ≤ p (if p b < p a then a else b) := by
      by_cases h : p b < p a
      · simp [h]
      · simpa [h] using le_of_not_lt h
    refine ⟨le_trans hb (ih (if p b < p a then a else b)).1, fun x hx => ?_⟩
    rcases List.mem_cons.mp hx with h | h
    · subst h; exact le_trans ha (ih _).1
    · exact (ih (if p b < p a then a else b)).2 x h

/-- The entry selected by `tf.argmax` is a maximum of the vector. -/
theorem tfArgmax_ge {n : Nat} [NeZero n] (p : Fin n → ℚ) (i : Fin n) :
    p i ≤ p (tfArgmax p) :=
  (argmax_foldl_ge p (List.finRange n) _).2 i (List.mem_finRange i)

/-- TensorFlow tensor slicing `preds[:, i]` along an axis of size `n` with a
Python `int` index: indices in `[0, n)` select directly, indices in `[-n, 0)`
wrap (NumPy-style negative indexing), anything else raises
`InvalidArgumentError`. -/
def tfResolveIndex (n : Nat) (i : Int) : Option (Fin n) :=
  if h : 0 ≤ i ∧ i < (n : Int) then
    some ⟨i.toNat, by omega⟩
  else if h2 : -(n : Int) ≤ i ∧ i < 0 then
    some ⟨(i + (n : Int)).toNat, by omega⟩
  else
    none

/-! ## Grad-CAM (`make_gradcam_heatmap`, src/app/app.py lines 61-73) -/

/-- `tf.reduce_mean(grads, axis=(0, 1, 2))` on a rank-4 tensor of shape
`(b, h, w, c)`: per-channel mean over batch and both spatial axes. -/
def reduceMean012 {b h w c : Nat} (g : Fin b → Fin h → Fin w → Fin c → ℚ) :
    Fin c → ℚ :=
  fun k => (∑ x : Fin b, ∑ i : Fin h, ∑ j : Fin w, g x i j k) /
    ((b : ℚ) * (h : ℚ) * (w : ℚ))

/-- Matrix product, the semantics of the `@` operator on the trailing two axes. -/
def tfMatmul {m n p : Nat} (A : Fin m → Fin n → ℚ) (B : Fin n → Fin p → ℚ) :
    Fin m → Fin p → ℚ :=
  fun i j => ∑ k : Fin n, A i k * B k j

/-- `last_conv_layer_output[0] @ pooled_grads[..., tf.newaxis]` followed by
`tf.squeeze`: the weighted sum of the activation map's channels. -/
def rawHeatmap {h w c : Nat} (act : Fin h → Fin w → Fin c → ℚ)
    (p : Fin c → ℚ) : Fin h → Fin w → ℚ :=
  fun i j => tfMatmul (act i) (fun k (_ : Fin 1) => p k) j 0

/-- All entries of a rank-2 tensor as a list (row-major). -/
def tensorEntries {h w : Nat} (r : Fin h → Fin w → ℚ) : List ℚ :=
  (List.finRange h).flatMap fun i => (List.finRange w).map (r i)

/-- `tf.math.reduce_max` of a rank-2 tensor. -/
def reduceMax {h w : Nat} (r : Fin h → Fin w → ℚ) : ℚ :=
  listMax (tensorEntries r)

/-- Floating-point division with a possibly-zero divisor: TensorFlow produces
a non-finite value (NaN or infinity) when the divisor is `0.0`; that outcome
is modelled as `none`. -/
def fdiv (a b : ℚ) : Option ℚ :=
  if b = 0 then none else some (a / b)

/-- `tf.maximum(heatmap, 0) / tf.math.reduce_max(heatmap)` (line 72): clip
negatives to zero, then divide every entry by the maximum of the unclipped
map.  There is no guard for a zero maximum. -/
def normalizeHeatmap {h w : Nat} (r : Fin h → Fin w → ℚ) :
    Fin h → Fin w → Option ℚ :=
  fun i j => fdiv (max (r i j) 0) (reduceMax r)

/-- `make_gradcam_heatmap(grad_model, img_array, pred_index=None)`
(lines 61-73).  The gradient-capable model is abstracted by the data it
produces on the given input: `preds` is the 5-class probability row
`preds[0]`, `act` is `last_conv_layer_output[0]`, and `grads k` is
`tape.gradient(preds[:, k], last_conv_layer_output)` (batch axis of size 1).
With `pred_index=None` the predicted class (`tf.argmax(preds[0])`) is
explained; an explicit index is resolved with TensorFlow slicing semantics
and an unresolvable index raises `InvalidArgumentError`. -/
def make_gradcam_heatmap {h w c : Nat} (preds : Fin 5 → ℚ)
    (act : Fin h → Fin w → Fin c → ℚ)
    (grads : Fin 5 → Fin 1 → Fin h → Fin w → Fin c → ℚ) :
    Option Int → Except String (Fin h → Fin w → Option ℚ)
  | none =>
    .ok (normalizeHeatmap (rawHeatmap act (reduceMean012 (grads (tfArgmax preds)))))
  | some i =>
    match tfResolveIndex 5 i with
    | some k => .ok (normalizeHeatmap (rawHeatmap act (reduceMean012 (grads k))))
    | none => .error "InvalidArgument"

/-- Entry `(i, j)` of the heatmap inside an explainer result, when the result
is a success and the indices are in range. -/
def gcEntry {h w : Nat} (e : Except String (Fin h → Fin w → Option ℚ))
    (i j : Nat) : Option (Option ℚ) :=
  match e with
  | .ok f =>
    if hi : i < h then
      if hj : j < w then some (f ⟨i, hi⟩ ⟨j, hj⟩) else none
    else none
  | .error _ => none

/-- Success test for an `Except` result. -/
def exceptIsOk {ε α : Type} (e : Except ε α) : Bool :=
  match e with
  | .ok _ => true
  | .error _ => false

/-! ## Concrete instantiations used by counterexamples and witnesses -/

/-- A uniform probability row (all five classes equally likely). -/
def pC : Fin 5 → ℚ := fun _ => 1 / 5

/-- A constant 1-by-1 single-channel activation map. -/
def aC : Fin 1 → Fin 1 → Fin 1 → ℚ := fun _ _ _ => 1

/-- An all-zero gradient tensor (the degenerate case: the class score does
not depend on the tapped activations). -/
def gC : Fin 5 → Fin 1 → Fin 1 → Fin 1 → Fin 1 → ℚ := fun _ _ _ _ _ => 0

/-- A 1-by-1 weighted map with a strictly positive maximum. -/
def rW : Fin 1 → Fin 1 → ℚ := fun _ _ => 1 / 2

/-- A probability row with a unique maximum at class 1. -/
def pW : Fin 5 → ℚ := ![0, 3, 1, 0, 0]

theorem finRange_one : List.finRange 1 = [0] := by decide

theorem finRange_five : List.finRange 5 = [0, 1, 2, 3, 4] := by decide

/-- C1 (amended): entries of the normalized Grad-CAM heatmap lie in `[0, 1]`
whenever the maximum of the unclipped weighted map is nonzero; when that
maximum is zero (all-zero activations or gradients) every entry is the
non-finite result of `0 / 0` (NaN in TensorFlow), not an all-zero map. -/
theorem heatmap_range_amended {h w : Nat} (r : Fin h → Fin w → ℚ) :
    (reduceMax r ≠ 0 →
      ∀ i j, ∃ v, normalizeHeatmap r i j = some v ∧ 0 ≤ v ∧ v ≤ 1) ∧
    (reduceMax r = 0 → ∀ i j, normalizeHeatmap r i j = none) := by
  constructor
  · intro hM i j
    have hmem : r i j ∈ tensorEntries r :=
      List.mem_flatMap.mpr ⟨i, List.mem_finRange i,
        List.mem_map_of_mem _ (List.mem_finRange j)⟩
    have hb : r i j ≤ reduceMax r := listMax_ge hmem
    rcases lt_or_gt_of_ne hM with hlt | hgt
    · have hr0 : r i j ≤ 0 := le_of_lt (lt_of_le_of_lt hb hlt)
      refine ⟨0, ?_, le_refl 0, by norm_num⟩
      simp [normalizeHeatmap, fdiv, hM, max_eq_right hr0]
    · refine ⟨max (r i j) 0 / reduceMax r, ?_, ?_, ?_⟩
      · simp [normalizeHeatmap, fdiv, hM]
      · exact div_nonneg (le_max_right (r i j) 0) (le_of_lt hgt)
      · exact (div_le_one hgt).mpr (max_le hb (le_of_lt hgt))
  · intro hM i j
    simp [normalizeHeatmap, fdiv, hM]

/-- Witness for `heatmap_range_amended`: on a 1-by-1 map with value `1/2`
the maximum is nonzero and the normalized entry lies in `[0, 1]`. -/
theorem heatmap_range_amended_witness :
    reduceMax rW ≠ 0 ∧
      ∃ v, normalizeHeatmap rW 0 0 = some v ∧ 0 ≤ v ∧ v ≤ 1 := by
  have hM : reduceMax rW ≠ 0 := by
    norm_num [reduceMax, tensorEntries, listMax, rW, finRange_one]
  exact ⟨hM, (heatmap_range_amended rW).1 hM 0 0⟩

/-- C1 (counterexample): with all-zero gradients (`gC`) the weighted map is
all zeros, its maximum is zero, and the entry the explainer returns is the
non-finite `0 / 0` (`none`, i.e. NaN) — not a value in `[0, 1]` and not the
all-zero heatmap the claim promises. -/
theorem gradcam_zero_max_yields_nan :
    gcEntry (make_gradcam_heatmap pC aC gC none) 0 0 = some none ∧
      some (none : Option ℚ) ≠ some (some (0 : ℚ)) := by
  refine ⟨?_, by simp⟩
  simp [gcEntry, make_gradcam_heatmap, normalizeHeatmap, rawHeatmap, reduceMean012,
    tfMatmul, reduceMax, tensorEntries, listMax, fdiv, pC, aC, gC, finRange_one]

/-- C3 (amended): an explicit `pred_index` whose value is below `-5` or at
least `5` makes the explainer fail with `InvalidArgument`; indices in
`[-5, -1]` do NOT fail — TensorFlow slicing wraps them, so `-1` explains
class `4`. -/
theorem explain_index_amended {h w c : Nat} (p : Fin 5 → ℚ)
    (act : Fin h → Fin w → Fin c → ℚ)
    (grads : Fin 5 → Fin 1 → Fin h → Fin w → Fin c → ℚ) :
    (∀ i : Int, (i < -5 ∨ 5 ≤ i) →
        make_gradcam_heatmap p act grads (some i) = .error "InvalidArgument") ∧
      make_gradcam_heatmap p act grads (some (-1)) =
        make_gradcam_heatmap p act grads (some 4) := by
  constructor
  · intro i hi
    simp only [make_gradcam_heatmap, tfResolveIndex]
    rw [dif_neg (by omega), dif_neg (by omega)]
  · rfl

/-- Witness for `explain_index_amended`: index `5` fails. -/
theorem explain_index_amended_witness :
    make_gradcam_heatmap pC aC gC (some 5) = .error "InvalidArgument" :=
  (explain_index_amended pC aC gC).1 5 (Or.inr (by norm_num))

/-- C3 (counterexample): `-1` is outside the claimed valid range `[0, 4]`,
yet the explainer succeeds (TensorFlow wraps the index to class `4`) instead
of failing with `InvalidArgument`. -/
theorem explain_negative_index_counterexample :
    ((-1 : Int) < 0 ∨ 4 < (-1 : Int)) ∧
      exceptIsOk (make_gradcam_heatmap pC aC gC (some (-1))) = true :=
  ⟨Or.inl (by norm_num), rfl⟩

/-- C6 (confirmed): the explainer follows the stated Grad-CAM steps — with
no explicit target it explains `tf.argmax` of the probability row (an index
attaining the maximum); the pooled gradient is the per-channel average over
the two spatial axes (the batch axis has size 1); and the raw single-channel
map at each position is the dot product of the activation channels with the
pooled-gradient weights. -/
theorem gradcam_steps_confirmed {h w c : Nat} (preds : Fin 5 → ℚ)
    (act : Fin h → Fin w → Fin c → ℚ)
    (grads : Fin 5 → Fin 1 → Fin h → Fin w → Fin c → ℚ) :
    make_gradcam_heatmap preds act grads none =
        .ok (normalizeHeatmap (rawHeatmap act
          (reduceMean012 (grads (tfArgmax preds))))) ∧
      (∀ i : Fin 5, preds i ≤ preds (tfArgmax preds)) ∧
      (∀ g : Fin 1 → Fin h → Fin w → Fin c → ℚ, ∀ k : Fin c,
        reduceMean012 g k =
          (∑ i : Fin h, ∑ j : Fin w, g 0 i j k) / ((h : ℚ) * (w : ℚ))) ∧
      (∀ q : Fin c → ℚ, ∀ i : Fin h, ∀ j : Fin w,
        rawHeatmap act q i j = ∑ k : Fin c, act i j k * q k) := by
  refine ⟨rfl, fun i => tfArgmax_ge preds i, fun g k => ?_, fun q i j => rfl⟩
  simp [reduceMean012]

/-- Witness for `gradcam_steps_confirmed` at a concrete model whose
probability row peaks at class 1. -/
theorem gradcam_steps_confirmed_witness :
    make_gradcam_heatmap pW aC gC none =
        .ok (normalizeHeatmap (rawHeatmap aC
          (reduceMean012 (gC (tfArgmax pW))))) ∧
      pW 1 ≤ pW (tfArgmax pW) :=
  ⟨(gradcam_steps_confirmed pW aC gC).1, (gradcam_steps_confirmed pW aC gC).2.1 1⟩

/-! ## Preprocessing (`img_array`, src/app/app.py lines 86-91) -/

/-- PIL interpolation policies relevant to the pipeline. -/
inductive Interp
  | nearest
  | bilinear
  | bicubic
deriving DecidableEq

/-- The interpolation used by `tf.keras.preprocessing.image.load_img`
(line 88): the call passes no `interpolation` argument, and the Keras
default is `"nearest"`. -/
def load_img_interpolation : Interp := Interp.nearest

/-- An RGB pixel as three rational channel values. -/
abbrev RGB := ℚ × ℚ × ℚ

/-- A 3-channel image of arbitrary resolution (`H` rows, `W` columns);
channel values are floats in `[0, 255]` when the image comes from
`img_to_array`. -/
structure QImage where
  H : Nat
  W : Nat
  pix : Fin H → Fin W → RGB

/-- A single-channel heatmap at the activation map's spatial resolution. -/
structure QHeat where
  h : Nat
  w : Nat
  val : Fin h → Fin w → ℚ

/-- `PIL.Image.resize((W, H))`: produces an image of exactly the requested
size, sampling the source by index scaling (the claims below depend only on
the output dimensions and on all-constant sources, not on the resampling
kernel, which is therefore modelled as plain index mapping). -/
def resizeImg (im : QImage) (H W : Nat) : QImage :=
  ⟨H, W, fun i j =>
    if hh : 0 < im.H then
      if hw : 0 < im.W then
        im.pix ⟨i.val * im.H / H % im.H, Nat.mod_lt _ hh⟩
          ⟨j.val * im.W / W % im.W, Nat.mod_lt _ hw⟩
      else (0, 0, 0)
    else (0, 0, 0)⟩

/-- `tf.keras.preprocessing.image.load_img(uploaded_file, target_size=(224, 224))`
(line 88): decodes and resizes to exactly 224 by 224 whatever the source
resolution or aspect ratio. -/
def load_img (uploaded : QImage) : QImage :=
  resizeImg uploaded 224 224

/-- `tf.keras.preprocessing.image.img_to_array`: a fresh float array carrying
the same pixel values. -/
def img_to_array (im : QImage) : QImage := im

/-- Shape of the preprocessed tensor: `img_to_array` gives `(H, W, 3)` and
`np.expand_dims(..., axis=0)` (line 90) prepends a batch axis of size 1. -/
def preprocess_shape (uploaded : QImage) : List Nat :=
  1 :: [(img_to_array (load_img uploaded)).H, (img_to_array (load_img uploaded)).W, 3]

/-! ## Overlay renderer (`overlay_heatmap_on_image`, src/app/app.py lines 75-84) -/

/-- `np.uint8` applied to a float: C-style cast, truncation toward zero then
reduction modulo 256 (NumPy's behavior for out-of-range finite values; NaN is
platform-dependent and outside this model, which carries only rationals). -/
def npUint8 (x : ℚ) : Fin 256 :=
  ⟨((if 0 ≤ x then ⌊x⌋ else ⌈x⌉) % 256).toNat, by omega⟩

/-- The 8-bit intensity `np.uint8(255 * heatmap)` (line 76) used to index the
256-entry jet colormap. -/
def heatmap_byte (hval : ℚ) : Fin 256 :=
  npUint8 (255 * hval)

/-- `jet_colors[heatmap]` (lines 77-79): per-pixel lookup of the 256-entry
jet color table at the 8-bit intensity. -/
def jet_colorize (jet : Fin 256 → RGB) (hm : QHeat) : QImage :=
  ⟨hm.h, hm.w, fun i j => jet (heatmap_byte (hm.val i j))⟩

/-- Apply a function to all three channels. -/
def rgbMap (f : ℚ → ℚ) (p : RGB) : RGB :=
  (f p.1, f p.2.1, f p.2.2)

def rgbSmul (a : ℚ) (p : RGB) : RGB :=
  (a * p.1, a * p.2.1, a * p.2.2)

def rgbAdd (p q : RGB) : RGB :=
  (p.1 + q.1, p.2.1 + q.2.1, p.2.2 + q.2.2)

/-- All channel values of an image as a list. -/
def QImage.entries (im : QImage) : List ℚ :=
  (List.finRange im.H).flatMap fun i => (List.finRange im.W).flatMap fun j =>
    [(im.pix i j).1, (im.pix i j).2.1, (im.pix i j).2.2]

/-- `tf.keras.preprocessing.image.array_to_img` with its default
`scale=True`, followed by the uint8 conversion (and, where the pipeline reads
the pixels back, `img_to_array`): shift by the array minimum, divide by the
maximum of the shifted array when nonzero, multiply by 255, truncate to
uint8.  This is min-max rescaling, not clamping. -/
def array_to_img (im : QImage) : QImage :=
  let m := listMin im.entries
  let M := listMax im.entries - m
  ⟨im.H, im.W, fun i j =>
    rgbMap (fun x =>
      ((npUint8 ((if M = 0 then x - m else (x - m) / M) * 255) : Fin 256) : ℚ))
      (im.pix i j)⟩

/-- `overlay_heatmap_on_image(img, heatmap, alpha=0.4)` (lines 75-84):
colorize the heatmap through the jet table, convert with `array_to_img`,
resize to the dimensions of the image that was passed in, blend
`jet_heatmap * alpha + img` unclamped, and convert the blend with
`array_to_img` (min-max rescale plus uint8 truncation). -/
def overlay_heatmap_on_image (jet : Fin 256 → RGB) (img : QImage) (hm : QHeat)
    (alpha : ℚ) : QImage :=
  let jetBig := resizeImg (array_to_img (jet_colorize jet hm)) img.H img.W
  array_to_img ⟨img.H, img.W, fun i j =>
    rgbAdd (rgbSmul alpha (jetBig.pix i j)) (img.pix i j)⟩

/-- The call site (lines 105-109): the overlay is built from
`img_to_array(img)` where `img` is the ALREADY RESIZED 224-by-224 image from
`load_img`, with the default `alpha = 0.4`. -/
def heatmap_overlay (jet : Fin 256 → RGB) (uploaded : QImage) (hm : QHeat) : QImage :=
  overlay_heatmap_on_image jet (img_to_array (load_img uploaded)) hm (2 / 5)

/-- Pixel `(0, 0)` of an image, `(0, 0, 0)` when the image is empty. -/
def QImage.pix00 (im : QImage) : RGB :=
  if h : 0 < im.H ∧ 0 < im.W then im.pix ⟨0, h.1⟩ ⟨0, h.2⟩ else (0, 0, 0)

/-! ## Concrete images for counterexamples and witnesses -/

/-- A black 300-by-400 uploaded image. -/
def up300 : QImage := ⟨300, 400, fun _ _ => (0, 0, 0)⟩

/-- A zero 7-by-7 heatmap. -/
def hm7 : QHeat := ⟨7, 7, fun _ _ => 0⟩

/-- An all-black jet color table (the claims below do not depend on the
specific table contents). -/
def jet0 : Fin 256 → RGB := fun _ => (0, 0, 0)

/-- A constant mid-gray 1-by-1 image with channel value 100. -/
def img100 : QImage := ⟨1, 1, fun _ _ => (100, 100, 100)⟩

/-- A 1-by-1 heatmap with value `1/2`. -/
def hm1 : QHeat := ⟨1, 1, fun _ _ => 1 / 2⟩

/-- C4 (amended): preprocessing resizes every upload to exactly 224-by-224
(independent of source resolution and aspect ratio) and after the batch axis
the shape is `(1, 224, 224, 3)`; the interpolation, however, is Keras's
default nearest-neighbor, not bilinear. -/
theorem preprocess_shape_amended (uploaded : QImage) :
    preprocess_shape uploaded = [1, 224, 224, 3] ∧
      load_img_interpolation = Interp.nearest :=
  ⟨rfl, rfl⟩

/-- C4 (counterexample): the shape claim holds, but the resize policy the
source uses (`load_img` with no `interpolation` argument, hence Keras's
default `"nearest"`) is not bilinear as claimed. -/
theorem preprocess_interpolation_counterexample :
    preprocess_shape up300 = [1, 224, 224, 3] ∧
      load_img_interpolation ≠ Interp.bilinear :=
  ⟨rfl, by decide⟩

/-- C2 (amended): the overlay renderer resizes the colorized heatmap to the
resolution of the image array passed to it; the pipeline passes the
224-by-224 resized image (`img_to_array(img)` with `img` from `load_img`),
so the overlay delivered to the caller is always 224-by-224, whatever the
uploaded image's resolution. -/
theorem overlay_resolution_amended (jet : Fin 256 → RGB) (uploaded : QImage)
    (hm : QHeat) :
    (heatmap_overlay jet uploaded hm).H = 224 ∧
      (heatmap_overlay jet uploaded hm).W = 224 ∧
      ∀ (img : QImage) (alpha : ℚ),
        (overlay_heatmap_on_image jet img hm alpha).H = img.H ∧
          (overlay_heatmap_on_image jet img hm alpha).W = img.W :=
  ⟨rfl, rfl, fun _ _ => ⟨rfl, rfl⟩⟩

/-- C2 (counterexample): a 300-by-400 upload yields a 224-by-224 overlay,
not an overlay at the original image's resolution. -/
theorem overlay_resolution_counterexample :
    up300.H = 300 ∧ (heatmap_overlay jet0 up300 hm7).H = 224 ∧
      (heatmap_overlay jet0 up300 hm7).H ≠ up300.H :=
  ⟨rfl, rfl, by decide⟩

/-- With `alpha = 0` the blended array equals the original image, so the
overlay reduces to the final `array_to_img` conversion of the original. -/
theorem overlay_alpha_zero (jet : Fin 256 → RGB) (img : QImage) (hm : QHeat) :
    overlay_heatmap_on_image jet img hm 0 = array_to_img img := by
  have himg : (⟨img.H, img.W, fun i j =>
      rgbAdd (rgbSmul 0
        ((resizeImg (array_to_img (jet_colorize jet hm)) img.H img.W).pix i j))
        (img.pix i j)⟩ : QImage) = img := by
    obtain ⟨H, W, pix⟩ := img
    simp only [QImage.mk.injEq, heq_eq_eq, true_and]
    funext i j
    simp [rgbSmul, rgbAdd]
  exact congrArg array_to_img himg

/-- C7 (amended): each blended pixel is
`colorized_heatmap_pixel * alpha + original_pixel`, unclamped — but the final
output conversion is Keras `array_to_img` with `scale=True`, which min-max
RESCALES to `[0, 255]` rather than clamping.  Consequently `alpha = 0` yields
the min-max rescaled original, which is pixel-identical to the original only
when the original already spans `[0, 255]`. -/
theorem overlay_blend_amended (jet : Fin 256 → RGB) (img : QImage) (hm : QHeat) :
    (∀ alpha : ℚ,
        overlay_heatmap_on_image jet img hm alpha =
          array_to_img ⟨img.H, img.W, fun i j =>
            rgbAdd (rgbSmul alpha
              ((resizeImg (array_to_img (jet_colorize jet hm)) img.H img.W).pix i j))
              (img.pix i j)⟩) ∧
      overlay_heatmap_on_image jet img hm 0 = array_to_img img :=
  ⟨fun _ => rfl, overlay_alpha_zero jet img hm⟩

/-- C7 (counterexample): with `alpha = 0` on a constant mid-gray image
(channel value 100), the output pixel is `(0, 0, 0)` — the min-max rescale
maps a constant image to black — not a pixel-identical copy of the original
`(100, 100, 100)`. -/
theorem overlay_alpha_zero_counterexample :
    (overlay_heatmap_on_image jet0 img100 hm1 0).pix00 = ((0 : ℚ), (0 : ℚ), (0 : ℚ)) ∧
      img100.pix00 = ((100 : ℚ), (100 : ℚ), (100 : ℚ)) ∧
      (((0 : ℚ), (0 : ℚ), (0 : ℚ)) : RGB) ≠ ((100 : ℚ), (100 : ℚ), (100 : ℚ)) := by
  refine ⟨?_, rfl, by norm_num [Prod.ext_iff]⟩
  rw [overlay_alpha_zero]
  show (array_to_img ⟨1, 1, fun _ _ => ((100 : ℚ), (100 : ℚ), (100 : ℚ))⟩).pix00 = _
  have hent : (QImage.mk 1 1 fun _ _ => ((100 : ℚ), (100 : ℚ), (100 : ℚ))).entries =
      [100, 100, 100] := by
    simp [QImage.entries, finRange_one]
  simp only [QImage.pix00, array_to_img, hent]
  norm_num [listMin, listMax, rgbMap, npUint8]

/-- C10 (confirmed): the heatmap-to-byte conversion `np.uint8(255 * h)`
does not validate the range of `h`.  For `h` in `[0, 1]` the intensity is the
plain truncation `⌊255 * h⌋` in `0..255`, and the 256-entry jet lookup is
total by construction (the index type is `Fin 256`); for `h` outside
`[0, 1]` the cast wraps modulo 256 instead of failing or clamping, silently
producing a wrong but in-range color index (`h = 6/5` gives 50, not the
clamped 255; `h = -1` gives 1, not 0).  NaN inputs are outside this rational
model (their conversion is platform-dependent in NumPy). -/
theorem heatmap_byte_conversion :
    (∀ hq : ℚ, 0 ≤ hq → hq ≤ 1 → ((heatmap_byte hq).val : Int) = ⌊255 * hq⌋) ∧
      (∀ (jet : Fin 256 → RGB) (hm : QHeat) (i : Fin hm.h) (j : Fin hm.w),
        (jet_colorize jet hm).pix i j = jet (heatmap_byte (hm.val i j))) ∧
      heatmap_byte (6 / 5) = (50 : Fin 256) ∧
      heatmap_byte (-1) = (1 : Fin 256) ∧
      (50 : Fin 256) ≠ (255 : Fin 256) := by
  refine ⟨?_, fun jet hm i j => rfl, ?_, ?_, by decide⟩
  · intro hq h0 h1
    have hx0 : (0 : ℚ) ≤ 255 * hq := by positivity
    have hfl0 : 0 ≤ ⌊(255 : ℚ) * hq⌋ := Int.floor_nonneg.mpr hx0
    have hfl : ⌊(255 : ℚ) * hq⌋ ≤ 255 := by
      have hle : (255 : ℚ) * hq ≤ 255 := by nlinarith
      have := Int.floor_le_floor hle
      simpa using this
    simp only [heatmap_byte, npUint8, if_pos hx0]
    rw [Int.emod_eq_of_lt hfl0 (by omega)]
    exact Int.toNat_of_nonneg hfl0
  · apply Fin.ext
    have hx : (255 : ℚ) * (6 / 5) = 306 := by norm_num
    simp only [heatmap_byte, npUint8, hx]
    rw [if_pos (by norm_num : (0 : ℚ) ≤ 306)]
    rw [show ⌊(306 : ℚ)⌋ = 306 by norm_num]
    decide
  · apply Fin.ext
    have hx : (255 : ℚ) * (-1) = -255 := by norm_num
    simp only [heatmap_byte, npUint8, hx]
    rw [if_neg (by norm_num : ¬(0 : ℚ) ≤ -255)]
    rw [show ⌈(-255 : ℚ)⌉ = -255 by
      rw [show ((-255 : ℚ)) = ((-255 : Int) : ℚ) by norm_num]
      exact Int.ceil_intCast (-255)]
    decide

/-- Witness for `heatmap_byte_conversion`: `h = 1/2` is in range and maps to
the unwrapped intensity `⌊127.5⌋ = 127`. -/
theorem heatmap_byte_conversion_witness :
    ((heatmap_byte (1 / 2)).val : Int) = ⌊(255 : ℚ) * (1 / 2)⌋ ∧
      ⌊(255 : ℚ) * (1 / 2)⌋ = 127 := by
  constructor
  · exact heatmap_byte_conversion.1 (1 / 2) (by norm_num) (by norm_num)
  · have : (255 : ℚ) * (1 / 2) = 255 / 2 := by ring
    rw [this]
    norm_num [Int.floor_eq_iff]

/-! ## Model provisioning (`download_model_from_url`, src/app/app.py lines 19-26) -/

/-- A remote HTTP response: status code plus the streamed body chunks
(`response.iter_content(chunk_size=8192)`), each chunk a list of bytes. -/
structure HttpResponse where
  status_code : Nat
  chunks : List (List Nat)

/-- The result of one `download_model_from_url` call: the raised error
message, if any, and the content at `output_path` afterwards (`none` means
no file exists there). -/
structure DownloadOutcome where
  error : Option String
  fileAt : Option (List Nat)

/-- `download_model_from_url(url, output_path)` (lines 19-26): on HTTP 200
the file is opened for writing and every streamed chunk is appended; on any
other status the function raises before ever opening the file (the `open`
sits inside the 200 branch), so the filesystem at `output_path` is
untouched. -/
def download_model_from_url (resp : HttpResponse) (fs : Option (List Nat)) :
    DownloadOutcome :=
  if resp.status_code = 200 then
    ⟨none, some resp.chunks.flatten⟩
  else
    ⟨some ("Failed to download model. HTTP Status code: " ++
      toString resp.status_code), fs⟩

/-- C5 (confirmed): a non-success status makes the download fail with an
error surfacing the status code, and the file at `local_path` is exactly
what it was before the call — no partial file is created. -/
theorem download_error_preserves_file (resp : HttpResponse)
    (fs : Option (List Nat)) (hst : resp.status_code ≠ 200) :
    (download_model_from_url resp fs).error =
        some ("Failed to download model. HTTP Status code: " ++
          toString resp.status_code) ∧
      (download_model_from_url resp fs).fileAt = fs := by
  simp [download_model_from_url, hst]

/-- Witness for `download_error_preserves_file`: HTTP 404 with no
pre-existing file leaves no file behind and reports the 404. -/
theorem download_error_preserves_file_witness :
    (download_model_from_url ⟨404, []⟩ none).error =
        some "Failed to download model. HTTP Status code: 404" ∧
      (download_model_from_url ⟨404, []⟩ none).fileAt = none :=
  download_error_preserves_file ⟨404, []⟩ none (by norm_num)

/-! ## Confidence reporting (src/app/app.py lines 59, 94-102, 120-127) -/

/-- The fixed ordinal class-name list (line 59). -/
def class_names : Fin 5 → String :=
  !["KL-GRADE 0", "KL-GRADE 1", "KL-GRADE 2", "KL-GRADE 3", "KL-GRADE 4"]

/-- `predicted_class = class_names[np.argmax(predictions)]` (line 95). -/
def predicted_class (p : Fin 5 → ℚ) : String :=
  class_names (tfArgmax p)

/-- `prediction_probabilities = 100 * predictions` (line 96). -/
def prediction_probabilities (p : Fin 5 → ℚ) : Fin 5 → ℚ :=
  fun i => 100 * p i

/-- `np.max` over a probability row, as shown in the confidence metric
(line 102). -/
def npMax {n : Nat} (v : Fin n → ℚ) : ℚ :=
  listMax ((List.finRange n).map v)

/-- The per-class bar data `ax.barh(class_names, prediction_probabilities)`
(line 122): `(class name, percentage)` pairs in class-index order. -/
def bars (p : Fin 5 → ℚ) : List (String × ℚ) :=
  (List.finRange 5).map fun i => (class_names i, prediction_probabilities p i)

/-- C8 (confirmed): the report multiplies each probability by 100, pairs by
index with the fixed `KL-GRADE 0..4` names, reports the arg-max class name
whose displayed percentage (`np.max` of the scaled row) is exactly 100 times
the arg-max probability, and lists the per-class bars in original
class-index order (index `i` holds class `i`), not sorted by probability. -/
theorem report_structure_confirmed (p : Fin 5 → ℚ) :
    predicted_class p = class_names (tfArgmax p) ∧
      (∀ i : Fin 5, p i ≤ p (tfArgmax p)) ∧
      npMax (prediction_probabilities p) = 100 * p (tfArgmax p) ∧
      bars p = [(class_names 0, 100 * p 0), (class_names 1, 100 * p 1),
        (class_names 2, 100 * p 2), (class_names 3, 100 * p 3),
        (class_names 4, 100 * p 4)] ∧
      (bars p).length = 5 := by
  refine ⟨rfl, fun i => tfArgmax_ge p i, ?_, ?_, rfl⟩
  · apply le_antisymm
    · apply listMax_le
      · simp [finRange_five]
      · intro x hx
        rcases List.mem_map.mp hx with ⟨i, _, rfl⟩
        exact mul_le_mul_of_nonneg_left (tfArgmax_ge p i) (by norm_num)
    · exact listMax_ge (List.mem_map_of_mem _ (List.mem_finRange (tfArgmax p)))
  · simp [bars, finRange_five, prediction_probabilities]

/-! ## Frame effect of one pipeline run (src/app/app.py lines 86-109)

NumPy/PIL aliasing is modelled with an explicit address store: every array
object lives at an address; `img_to_array` and the overlay's intermediate
arrays allocate fresh addresses, `np.expand_dims(..., axis=0)` returns a
VIEW (the same address), and `xception.preprocess_input` writes its argument
in place.  The values derived along the way are irrelevant to the frame
claim, so the derivations (resize, heatmap, overlay) are parameters. -/

/-- A heap of array buffers addressed by allocation order. -/
structure Store where
  next : Nat
  mem : Nat → Option (List ℚ)

/-- Allocate a fresh buffer, returning its address. -/
def Store.alloc (s : Store) (v : List ℚ) : Nat × Store :=
  (s.next, ⟨s.next + 1, fun a => if a = s.next then some v else s.mem a⟩)

/-- Overwrite the buffer at an existing address (an in-place NumPy op). -/
def Store.write (s : Store) (addr : Nat) (v : List ℚ) : Store :=
  ⟨s.next, fun a => if a = addr then some v else s.mem a⟩

/-- `tf.keras.applications.xception.preprocess_input` in `"tf"` mode:
`x /= 127.5; x -= 1.0`, applied elementwise (and, in the source, in place on
its argument). -/
def xception_preprocess_input (l : List ℚ) : List ℚ :=
  l.map fun x => x / (255 / 2) - 1

/-- One full pipeline run over an uploaded image living at `imgAddr`
(lines 86-109): `load_img` makes a new decoded-and-resized object;
`img_to_array` copies it to a fresh float buffer; `np.expand_dims` is a view
of that same buffer; `preprocess_input` mutates that buffer in place;
Grad-CAM produces a fresh heatmap; the overlay reads a second fresh
`img_to_array(img)` copy and allocates its output.  `resizeVals`,
`toArrVals`, `heatVals` and `overlayVals` abstract the derived values, which
the frame claim does not depend on. -/
def pipeline_run (resizeVals toArrVals heatVals overlayVals : List ℚ → List ℚ)
    (s0 : Store) (imgAddr : Nat) : Store :=
  let v0 := (s0.mem imgAddr).getD []
  let a1 := s0.alloc (resizeVals v0)
  let a2 := a1.2.alloc (toArrVals ((a1.2.mem a1.1).getD []))
  let s3 := a2.2.write a2.1 (xception_preprocess_input ((a2.2.mem a2.1).getD []))
  let a4 := s3.alloc (heatVals ((s3.mem a2.1).getD []))
  let a5 := a4.2.alloc (toArrVals ((a4.2.mem a1.1).getD []))
  let a6 := a5.2.alloc (overlayVals (((a5.2.mem a5.1).getD []) ++ ((a5.2.mem a4.1).getD [])))
  a6.2

/-- C9 (confirmed): a full pipeline run never touches the caller's image
buffer — every write goes to a freshly allocated address, so any address
already live before the run still holds exactly its old contents. -/
theorem pipeline_preserves_caller_image
    (resizeVals toArrVals heatVals overlayVals : List ℚ → List ℚ)
    (s0 : Store) (imgAddr : Nat) (hlive : imgAddr < s0.next) :
    (pipeline_run resizeVals toArrVals heatVals overlayVals s0 imgAddr).mem imgAddr =
      s0.mem imgAddr := by
  simp only [pipeline_run, Store.alloc, Store.write]
  repeat rw [if_neg (by omega)]

/-- A one-buffer store holding the caller's image `[7]` at address 0. -/
def s0C : Store :=
  ⟨1, fun a => if a = 0 then some [7] else none⟩

/-- Witness for `pipeline_preserves_caller_image`: with the caller's buffer
at address 0 of `s0C`, the run leaves it holding `[7]`. -/
theorem pipeline_preserves_caller_image_witness :
    (pipeline_run id id id id s0C 0).mem 0 = s0C.mem 0 ∧ s0C.mem 0 = some [7] :=
  ⟨pipeline_preserves_caller_image id id id id s0C 0 (by norm_num [s0C]), rfl⟩
